import Mathlib

/-!
Verification of core simulation components of the "Flucht von der
Dinosaurier Insel" game against its specification.

Shallow embedding conventions:
* Python floats are embedded as rationals (`ℚ`); Python `int(...)`
  truncation toward zero is `pyInt`; Python `//` floor division on
  floats is `Int.floor` of the quotient; `//` on ints is `Int.fdiv`.
* Mutable objects become records, mutation becomes explicit state
  passing, a Python loop becomes structural recursion over the list
  iterated.
* Side effects that do not touch game state (logging, sounds, HUD
  flashes, event-bus emission) are dropped from the embedding; random
  draws become explicit oracle arguments.
* Python object identity (used by `list.remove` and duplicate checks)
  is embedded by giving entity records an `id` field and assuming the
  live lists are duplicate-free where the claims do.
-/

/-- Python `int(...)` applied to a float: truncation toward zero. -/
def pyInt (q : ℚ) : ℤ := if 0 ≤ q then ⌊q⌋ else ⌈q⌉

theorem pyInt_mono {p q : ℚ} (h : p ≤ q) : pyInt p ≤ pyInt q := by
  unfold pyInt
  by_cases hp : 0 ≤ p
  · rw [if_pos hp, if_pos (le_trans hp h)]
    exact Int.floor_le_floor h
  · rw [if_neg hp]
    by_cases hq : 0 ≤ q
    · rw [if_pos hq]
      calc ⌈p⌉ ≤ 0 := Int.ceil_le.mpr (by exact_mod_cast le_of_not_le hp)
        _ ≤ ⌊q⌋ := Int.floor_nonneg.mpr hq
    · rw [if_neg hq]
      exact Int.ceil_le_ceil h

theorem pyInt_le (q : ℚ) : (pyInt q : ℚ) ≤ q ∨ (q ≤ (pyInt q : ℚ) ∧ (pyInt q : ℚ) < q + 1) := by
  unfold pyInt
  by_cases h : 0 ≤ q
  · exact Or.inl (by rw [if_pos h]; exact Int.floor_le q)
  · refine Or.inr ?_
    rw [if_neg h]
    exact ⟨Int.le_ceil q, Int.ceil_lt_add_one q⟩

theorem abs_pyInt_sub_le_one (q : ℚ) : |(pyInt q : ℚ) - q| ≤ 1 := by
  rcases pyInt_le q with h | ⟨h₁, h₂⟩
  · have h2 : q - 1 < (pyInt q : ℚ) := by
      unfold pyInt at *
      by_cases hq : 0 ≤ q
      · rw [if_pos hq] at *; linarith [Int.sub_one_lt_floor q]
      · rw [if_neg hq] at *; linarith [Int.le_ceil q]
    rw [abs_le]; constructor <;> linarith
  · rw [abs_le]; constructor <;> linarith

/-!
## C1 — fixed-timestep main loop (`Game.run`, src/game.py lines 151-185)

Per loop iteration the smoothed frame time is added to the accumulator
and then `while accumulator >= fixed_dt: update(fixed_dt);
accumulator -= fixed_dt` runs.  `fixedUpdateLoop` is the inner while
loop (returning the final accumulator and the number of `update`
calls); `gameRunLoop` folds it over a whole sequence of smoothed frame
times, starting from the accumulator left by earlier iterations.
-/

/-- Inner fixed-step while loop of `Game.run`: while `fixed_dt ≤ acc`,
run one scene update and decrement the accumulator.  Returns the final
accumulator and the number of `update(fixed_dt)` calls made. -/
def fixedUpdateLoop (fd : ℚ) (acc : ℚ) : ℚ × ℕ :=
  if h : 0 < fd ∧ fd ≤ acc then
    let r := fixedUpdateLoop fd (acc - fd)
    (r.1, r.2 + 1)
  else
    (acc, 0)
termination_by (⌊acc / fd⌋).toNat
decreasing_by
  have hfd : 0 < fd := h.1
  have h1 : (1:ℚ) ≤ acc / fd := (one_le_div hfd).mpr h.2
  have h2 : (1:ℤ) ≤ ⌊acc / fd⌋ := Int.le_floor.mpr (by exact_mod_cast h1)
  have h3 : (acc - fd) / fd = acc / fd - 1 := by
    rw [sub_div, div_self (ne_of_gt hfd)]
  rw [h3, Int.floor_sub_one]
  omega

/-- Outer loop of `Game.run` restricted to the accumulator state: each
iteration adds one smoothed frame time, then runs the inner fixed-step
loop.  Returns the final accumulator and total number of scene update
calls. -/
def gameRunLoop (fd : ℚ) (acc : ℚ) : List ℚ → ℚ × ℕ
  | [] => (acc, 0)
  | ft :: rest =>
    let step := fixedUpdateLoop fd (acc + ft)
    let r := gameRunLoop fd step.1 rest
    (r.1, step.2 + r.2)

theorem fixedUpdateLoop_spec (fd : ℚ) (hfd : 0 < fd) :
    ∀ (n : ℕ) (acc : ℚ), 0 ≤ acc → ⌊acc / fd⌋ = (n : ℤ) →
      fixedUpdateLoop fd acc = (acc - (n : ℚ) * fd, n) := by
  intro n
  induction n with
  | zero =>
    intro acc hacc hfl
    have hlt : ¬ fd ≤ acc := by
      intro hle
      have h1 : (1:ℚ) ≤ acc / fd := (one_le_div hfd).mpr hle
      have h2 : (1:ℤ) ≤ ⌊acc / fd⌋ := Int.le_floor.mpr (by exact_mod_cast h1)
      omega
    rw [fixedUpdateLoop, dif_neg (by tauto)]
    simp
  | succ n ih =>
    intro acc hacc hfl
    have hle : fd ≤ acc := by
      have h2 : (1:ℤ) ≤ ⌊acc / fd⌋ := by omega
      have h1 : (1:ℚ) ≤ acc / fd := by exact_mod_cast Int.le_floor.mp h2
      exact (one_le_div hfd).mp h1
    have h3 : (acc - fd) / fd = acc / fd - 1 := by
      rw [sub_div, div_self (ne_of_gt hfd)]
    have hrec := ih (acc - fd) (by linarith)
      (by rw [h3, Int.floor_sub_one, hfl]; push_cast; ring)
    rw [fixedUpdateLoop, dif_pos ⟨hfd, hle⟩]
    simp only [hrec]
    rw [Prod.mk.injEq]
    exact ⟨by push_cast; ring, rfl⟩

theorem fixedUpdateLoop_correct (fd : ℚ) (hfd : 0 < fd) (acc : ℚ) (hacc : 0 ≤ acc) :
    fixedUpdateLoop fd acc = (acc - (⌊acc / fd⌋ : ℚ) * fd, (⌊acc / fd⌋).toNat) := by
  have hq : (0:ℚ) ≤ acc / fd := div_nonneg hacc (le_of_lt hfd)
  have hnn : (0:ℤ) ≤ ⌊acc / fd⌋ := Int.floor_nonneg.mpr hq
  have := fixedUpdateLoop_spec fd hfd (⌊acc / fd⌋).toNat acc hacc (by omega)
  rw [this]
  have h4 : ((⌊acc / fd⌋.toNat : ℕ) : ℚ) = ((⌊acc / fd⌋ : ℤ) : ℚ) := by
    exact_mod_cast congrArg (fun z : ℤ => (z : ℚ)) (Int.toNat_of_nonneg hnn)
  rw [h4]

theorem fixedUpdateLoop_range (fd : ℚ) (hfd : 0 < fd) (acc : ℚ) (hacc : 0 ≤ acc) :
    0 ≤ (fixedUpdateLoop fd acc).1 ∧ (fixedUpdateLoop fd acc).1 < fd := by
  rw [fixedUpdateLoop_correct fd hfd acc hacc]
  have h1 : (⌊acc / fd⌋ : ℚ) ≤ acc / fd := Int.floor_le _
  have h2 : acc / fd < (⌊acc / fd⌋ : ℚ) + 1 := Int.lt_floor_add_one _
  constructor
  · have := mul_le_mul_of_nonneg_right h1 (le_of_lt hfd)
    rw [div_mul_cancel₀ _ (ne_of_gt hfd)] at this
    simpa using this
  · have := mul_lt_mul_of_pos_right h2 hfd
    rw [div_mul_cancel₀ _ (ne_of_gt hfd)] at this
    simp only [Prod.fst]
    linarith

theorem gameRunLoop_invariant (fd : ℚ) (hfd : 0 < fd) :
    ∀ (frames : List ℚ) (acc : ℚ), 0 ≤ acc → acc < fd →
      (∀ ft ∈ frames, 0 ≤ ft) →
      0 ≤ (gameRunLoop fd acc frames).1 ∧
      (gameRunLoop fd acc frames).1 < fd ∧
      ((gameRunLoop fd acc frames).2 : ℤ) = ⌊(acc + frames.sum) / fd⌋ := by
  intro frames
  induction frames with
  | nil =>
    intro acc h0 h1 _
    refine ⟨h0, h1, ?_⟩
    have : ⌊acc / fd⌋ = 0 := by
      rw [Int.floor_eq_zero_iff]
      constructor
      · exact div_nonneg h0 (le_of_lt hfd)
      · rw [div_lt_one hfd]; exact h1
    simpa [gameRunLoop] using this.symm
  | cons ft rest ih =>
    intro acc h0 h1 hfr
    have hft : 0 ≤ ft := hfr ft (by simp)
    have hrest : ∀ f ∈ rest, 0 ≤ f := fun f hf => hfr f (by simp [hf])
    have hsum : 0 ≤ acc + ft := by linarith
    have hstep := fixedUpdateLoop_correct fd hfd (acc + ft) hsum
    have hrange := fixedUpdateLoop_range fd hfd (acc + ft) hsum
    obtain ⟨hr0, hr1⟩ := hrange
    have hIH := ih (fixedUpdateLoop fd (acc + ft)).1 hr0 hr1 hrest
    obtain ⟨g0, g1, g2⟩ := hIH
    refine ⟨by simpa [gameRunLoop] using g0, by simpa [gameRunLoop] using g1, ?_⟩
    have hq : (fixedUpdateLoop fd (acc + ft)).1 =
        (acc + ft) - (⌊(acc + ft) / fd⌋ : ℚ) * fd := by rw [hstep]
    have hcnt : ((fixedUpdateLoop fd (acc + ft)).2 : ℤ) = ⌊(acc + ft) / fd⌋ := by
      rw [hstep]
      exact Int.toNat_of_nonneg (Int.floor_nonneg.mpr (div_nonneg hsum (le_of_lt hfd)))
    -- decompose the floor of the total across the first inner loop
    have hkey : ⌊(acc + (ft :: rest).sum) / fd⌋ =
        ⌊(acc + ft) / fd⌋ + ⌊((fixedUpdateLoop fd (acc + ft)).1 + rest.sum) / fd⌋ := by
      rw [hq]
      have : (acc + (ft :: rest).sum) / fd =
          ((acc + ft - (⌊(acc + ft) / fd⌋ : ℚ) * fd + rest.sum) / fd) + (⌊(acc + ft) / fd⌋ : ℚ) := by
        field_simp
        ring
      rw [this, Int.floor_add_int]
      ring
    simp only [gameRunLoop]
    push_cast
    rw [hkey, ← hcnt, ← g2]

/-- C1.  In `Game.run`'s main loop, for any sequence of nonnegative
smoothed frame times, after the inner fixed-step while loop of an
iteration completes the accumulator is in `[0, fixed_dt)` — never
negative, never `≥ fixed_dt` — and the cumulative number of scene
`update(fixed_dt)` calls equals `⌊total smoothed time / fixed_dt⌋`.
(Instantiating `frames` with any prefix of the frame-time sequence
gives the statement after each iteration.) -/
theorem game_run_fixed_timestep (fd : ℚ) (frames : List ℚ)
    (hfd : 0 < fd) (hfr : ∀ ft ∈ frames, 0 ≤ ft) :
    0 ≤ (gameRunLoop fd 0 frames).1 ∧
    (gameRunLoop fd 0 frames).1 < fd ∧
    ((gameRunLoop fd 0 frames).2 : ℤ) = ⌊frames.sum / fd⌋ := by
  have := gameRunLoop_invariant fd hfd frames 0 (le_refl 0) hfd hfr
  simpa using this

/-- Witness for C1 at `fixed_dt = 1/60` and three concrete frame times. -/
theorem game_run_fixed_timestep_witness :
    0 ≤ (gameRunLoop (1/60) 0 [1/100, 1/50, 1/30]).1 ∧
    (gameRunLoop (1/60) 0 [1/100, 1/50, 1/30]).1 < 1/60 ∧
    ((gameRunLoop (1/60) 0 [1/100, 1/50, 1/30]).2 : ℤ) = ⌊([1/100, 1/50, 1/30] : List ℚ).sum / (1/60)⌋ :=
  game_run_fixed_timestep (1/60) [1/100, 1/50, 1/30] (by norm_num)
    (by intro ft hft; simp at hft; rcases hft with h | h | h <;> rw [h] <;> norm_num)

/-!
## C2 — StateStack update/render with blocking and transparent layers
(src/engine/state_stack.py)

States are embedded as records carrying the `is_blocking` /
`is_transparent` flags of `GameStateBase` together with spy counters
for received `update` and `render` calls.  The stack list is kept in
Python order: index 0 is the bottom, the last element is the top.
-/

/-- A stacked game state, instrumented with spy counters. -/
structure SpyState where
  is_blocking : Bool
  is_transparent : Bool
  updateCount : ℕ
  renderCount : ℕ
deriving DecidableEq, Repr

/-- Record one `update(dt)` call received by a state. -/
def touchUpdate (s : SpyState) : SpyState := {s with updateCount := s.updateCount + 1}

/-- Record one `render(surface)` call received by a state. -/
def touchRender (s : SpyState) : SpyState := {s with renderCount := s.renderCount + 1}

/-- A buffered stack mutation (`StateStack.push/pop/clear/replace`). -/
inductive PendingAction where
  | push (s : SpyState)
  | pop
  | clear
  | replace (s : SpyState)
deriving DecidableEq, Repr

/-- The state stack: live states plus the queued actions. -/
structure StateStack where
  states : List SpyState
  pending_actions : List PendingAction
deriving DecidableEq, Repr

/-- The `for i in range(len-1, -1, -1)` loop body of
`StateStack.update`, acting on the reversed stack (top first): update
each state, stop after the first blocking one. -/
def updateFromTop : List SpyState → List SpyState
  | [] => []
  | s :: rest =>
    touchUpdate s :: (if s.is_blocking then rest else updateFromTop rest)

/-- One branch of `StateStack._apply_pending_actions` (the lifecycle
hooks `on_pause/on_resume/on_enter/on_exit` of the base class are
no-ops on the spy counters). -/
def applyAction (states : List SpyState) : PendingAction → List SpyState
  | .push s => states ++ [s]
  | .pop => if states.isEmpty then states else states.dropLast
  | .clear => []
  | .replace s => (if states.isEmpty then states else states.dropLast) ++ [s]

/-- `StateStack._apply_pending_actions`: fold the queued actions, then
clear the queue. -/
def applyPendingActions (st : StateStack) : StateStack :=
  ⟨st.pending_actions.foldl applyAction st.states, []⟩

/-- `StateStack.update`: update from the top down to the first
blocking state, then apply the pending actions. -/
def StateStack.update (st : StateStack) : StateStack :=
  applyPendingActions ⟨(updateFromTop st.states.reverse).reverse, st.pending_actions⟩

/-- Start index of `StateStack.render`'s bottom-to-top loop: the
highest non-transparent state (defaulting to the top of the stack when
every state is transparent). -/
def renderStart (states : List SpyState) : ℕ :=
  let r := states.reverse.findIdx (fun s => !s.is_transparent)
  if r < states.length then states.length - 1 - r else states.length - 1

/-- `StateStack.render`: render every state from `renderStart` to the
top (pending actions are untouched). -/
def StateStack.render (st : StateStack) : StateStack :=
  ⟨st.states.take (renderStart st.states) ++
    (st.states.drop (renderStart st.states)).map touchRender,
   st.pending_actions⟩

theorem stackUpdate_eq (sts : List SpyState) (pend : List PendingAction) :
    StateStack.update ⟨sts, pend⟩ =
      ⟨pend.foldl applyAction (updateFromTop sts.reverse).reverse, []⟩ := rfl

/-- C2.  With a blocking state `q` (e.g. a Pause layer) on top of `p`
(e.g. the Playing layer): `update` touches only `q`, so `p` receives
no update call; `render` with a transparent `q` over a non-transparent
`p` still renders `p` and `q`; an `update` tick with a queued `pop`
removes `q` after updating it; and on the next tick the new top `p`
receives an update call again. -/
theorem stateStack_pause_blocks_update (bs : List SpyState) (p q : SpyState)
    (hq : q.is_blocking = true) (htq : q.is_transparent = true)
    (htp : p.is_transparent = false) :
    StateStack.update ⟨bs ++ [p, q], []⟩ = ⟨bs ++ [p, touchUpdate q], []⟩ ∧
    StateStack.render ⟨bs ++ [p, q], []⟩ = ⟨bs ++ [touchRender p, touchRender q], []⟩ ∧
    StateStack.update ⟨bs ++ [p, q], [PendingAction.pop]⟩ = ⟨bs ++ [p], []⟩ ∧
    (∃ bs2 : List SpyState, bs2.length = bs.length ∧
      StateStack.update ⟨bs ++ [p], []⟩ = ⟨bs2 ++ [touchUpdate p], []⟩) := by
  have hrev : (bs ++ [p, q]).reverse = q :: p :: bs.reverse := by
    simp
  have hupd : (updateFromTop (bs ++ [p, q]).reverse).reverse = bs ++ [p, touchUpdate q] := by
    rw [hrev]
    simp [updateFromTop, hq]
  refine ⟨?_, ?_, ?_, ?_⟩
  · rw [stackUpdate_eq, List.foldl_nil, hupd]
  · have hfind : (bs ++ [p, q]).reverse.findIdx (fun s => !s.is_transparent) = 1 := by
      rw [hrev]
      rw [List.findIdx_cons, List.findIdx_cons]
      simp [htq, htp]
    have hlen : (bs ++ [p, q]).length = bs.length + 2 := by simp
    have hstart : renderStart (bs ++ [p, q]) = bs.length := by
      unfold renderStart
      rw [hfind, hlen]
      simp only [if_pos (by omega : 1 < bs.length + 2)]
      omega
    unfold StateStack.render
    rw [hstart]
    have ht : (bs ++ [p, q]).take bs.length = bs := by
      rw [List.take_append_of_le_length (le_refl _), List.take_length]
    have hd : (bs ++ [p, q]).drop bs.length = [p, q] := by
      rw [List.drop_append_of_le_length (le_refl _), List.drop_length]
      simp
    rw [ht, hd]
    simp [touchRender]
  · rw [stackUpdate_eq, List.foldl_cons, List.foldl_nil, hupd]
    have hne : (bs ++ [p, touchUpdate q]).isEmpty = false := by
      cases bs <;> rfl
    simp only [applyAction, hne, Bool.false_eq_true, if_false]
    have hsplit : bs ++ [p, touchUpdate q] = (bs ++ [p]) ++ [touchUpdate q] := by simp
    rw [hsplit, List.dropLast_concat]
  · refine ⟨if p.is_blocking then bs else (updateFromTop bs.reverse).reverse, ?_, ?_⟩
    · by_cases hb : p.is_blocking <;> simp [hb]
      · -- length of the updated stack equals the original length
        have : ∀ l : List SpyState, (updateFromTop l).length = l.length := by
          intro l
          induction l with
          | nil => rfl
          | cons s rest ih =>
            by_cases hsb : s.is_blocking <;> simp [updateFromTop, hsb, ih]
        simpa using this bs.reverse
    · have hrev1 : (bs ++ [p]).reverse = p :: bs.reverse := by simp
      unfold StateStack.update applyPendingActions
      rw [hrev1]
      by_cases hb : p.is_blocking <;> simp [updateFromTop, hb]

/-- Witness for C2: an opaque Playing layer under a transparent,
blocking Pause layer. -/
theorem stateStack_pause_blocks_update_witness :
    StateStack.update ⟨[⟨true, false, 0, 0⟩, ⟨true, true, 0, 0⟩], []⟩ =
      ⟨[⟨true, false, 0, 0⟩, touchUpdate ⟨true, true, 0, 0⟩], []⟩ ∧
    StateStack.render ⟨[⟨true, false, 0, 0⟩, ⟨true, true, 0, 0⟩], []⟩ =
      ⟨[touchRender ⟨true, false, 0, 0⟩, touchRender ⟨true, true, 0, 0⟩], []⟩ ∧
    StateStack.update ⟨[⟨true, false, 0, 0⟩, ⟨true, true, 0, 0⟩], [PendingAction.pop]⟩ =
      ⟨[⟨true, false, 0, 0⟩], []⟩ ∧
    (∃ bs2 : List SpyState, bs2.length = 0 ∧
      StateStack.update ⟨[⟨true, false, 0, 0⟩], []⟩ =
        ⟨bs2 ++ [touchUpdate ⟨true, false, 0, 0⟩], []⟩) :=
  stateStack_pause_blocks_update [] ⟨true, false, 0, 0⟩ ⟨true, true, 0, 0⟩ rfl rfl rfl

/-!
## C3 / C4 — collision resolution (`check_collisions`, src/collision_manager.py)

`config.py` and `entities.py` are not part of the sources at hand;
the `Config` constants stay abstract structure fields and `Player` /
`Dinosaur` / `Item` are plain data records, modelled from the spec
("health (integer)", "inventory (mapping item-type → count)", "score",
"transient status effects", item "type tag", dinosaur "aggression
flag").  The collision logic itself is translated from
`check_collisions` line by line; sounds, HUD flashes, logging and
event-bus emission have no effect on the game state and are dropped.
-/

/-- Modelled from the spec: the configuration constants read by
`check_collisions` and the camera (values live in the missing
`config.py`; they stay abstract here). -/
structure Config where
  LAVA_DAMAGE : ℤ
  SPIKE_DAMAGE : ℤ
  DINOSAUR_ATTACK_DAMAGE : ℤ
  SPIKES_ENABLED : Bool
  TILE_SIZE : ℚ

/-- Modelled from the spec: the player fields read or written by
`check_collisions` (defined in the missing `entities.py`). -/
structure Player where
  x : ℚ
  y : ℚ
  hp : ℤ
  inventory : String → ℕ
  score : ℤ
  repellent_active : Bool
  last_item_picked : Option String

/-- Modelled from the spec: a dinosaur as seen by `check_collisions`;
`id` stands in for Python object identity. -/
structure Dinosaur where
  id : ℕ
  x : ℚ
  y : ℚ
  aggressive : Bool
  just_attacked : Bool
deriving DecidableEq

/-- Modelled from the spec: an item as seen by `check_collisions`;
`id` stands in for Python object identity (`list.remove` removes the
first list element equal to its argument). -/
structure Item where
  id : ℕ
  x : ℚ
  y : ℚ
  type : String
deriving DecidableEq

/-- The slice of the `Game` object read and written by
`check_collisions`.  `game_map` is a total tile-id lookup
(`game_map[y][x]`; the generator lives in the missing `map_gen.py`). -/
structure Game where
  player : Player
  game_map : ℤ → ℤ → ℕ
  lava_fields : List (ℤ × ℤ)
  dinosaurs : List Dinosaur
  items : List Item

/-- Lava branch of `check_collisions`. -/
def lavaCheck (cfg : Config) (g : Game) : Game :=
  if (pyInt g.player.x, pyInt g.player.y) ∈ g.lava_fields then
    {g with player := {g.player with hp := g.player.hp - cfg.LAVA_DAMAGE}}
  else g

/-- Spike branch of `check_collisions`: only when spikes are enabled,
and the tile id under the player is 5. -/
def spikeCheck (cfg : Config) (g : Game) : Game :=
  if cfg.SPIKES_ENABLED then
    if g.game_map (pyInt g.player.y) (pyInt g.player.x) = 5 then
      {g with player := {g.player with hp := g.player.hp - cfg.SPIKE_DAMAGE}}
    else g
  else g

/-- Dinosaur loop of `check_collisions`: every dinosaur sharing the
player's integer tile that is aggressive while no repellent is active
deals its damage and is marked `just_attacked`. -/
def dinoLoop (cfg : Config) : List Dinosaur → Player → Player × List Dinosaur
  | [], p => (p, [])
  | d :: rest, p =>
    if pyInt d.x = pyInt p.x ∧ pyInt d.y = pyInt p.y then
      if d.aggressive = true ∧ p.repellent_active = false then
        let r := dinoLoop cfg rest {p with hp := p.hp - cfg.DINOSAUR_ATTACK_DAMAGE}
        (r.1, {d with just_attacked := true} :: r.2)
      else
        let r := dinoLoop cfg rest p
        (r.1, d :: r.2)
    else
      let r := dinoLoop cfg rest p
      (r.1, d :: r.2)

/-- Dinosaur branch of `check_collisions`. -/
def dinoCheck (cfg : Config) (g : Game) : Game :=
  let r := dinoLoop cfg g.dinosaurs g.player
  {g with player := r.1, dinosaurs := r.2}

/-- `player.inventory[it.type] += 1`. -/
def bumpInventory (inv : String → ℕ) (ty : String) : String → ℕ :=
  fun s => if s = ty then inv s + 1 else inv s

/-- Body of the pickup branch: inventory bump, `last_item_picked`,
removal from the live list, and the fixed +10 score bonus
(`it.on_pickup()` lives in the missing `entities.py`; per the spec an
item is simply "destroyed on pickup", so it adds no state change
here). -/
def pickupItem (g : Game) (it : Item) : Game :=
  { g with
    player := { g.player with
      inventory := bumpInventory g.player.inventory it.type,
      last_item_picked := some it.type,
      score := g.player.score + 10 },
    items := g.items.erase it }

/-- Item loop of `check_collisions`: iterate over the snapshot
`game.items[:]`, picking up every item on the player's tile. -/
def itemLoop : List Item → Game → Game
  | [], g => g
  | it :: rest, g =>
    if pyInt it.x = pyInt g.player.x ∧ pyInt it.y = pyInt g.player.y then
      itemLoop rest (pickupItem g it)
    else
      itemLoop rest g

/-- `check_collisions` (src/collision_manager.py lines 23-83): the
four hazard/item passes in source order. -/
def check_collisions (cfg : Config) (g : Game) : Game :=
  let g1 := lavaCheck cfg g
  let g2 := spikeCheck cfg g1
  let g3 := dinoCheck cfg g2
  itemLoop g3.items g3

theorem dinoLoop_pres (cfg : Config) :
    ∀ (ds : List Dinosaur) (p : Player),
      (dinoLoop cfg ds p).1.x = p.x ∧ (dinoLoop cfg ds p).1.y = p.y ∧
      (dinoLoop cfg ds p).1.inventory = p.inventory ∧
      (dinoLoop cfg ds p).1.score = p.score ∧
      (dinoLoop cfg ds p).1.repellent_active = p.repellent_active ∧
      (dinoLoop cfg ds p).1.last_item_picked = p.last_item_picked := by
  intro ds
  induction ds with
  | nil => intro p; exact ⟨rfl, rfl, rfl, rfl, rfl, rfl⟩
  | cons d rest ih =>
    intro p
    simp only [dinoLoop]
    split_ifs with h1 h2
    · simpa using ih {p with hp := p.hp - cfg.DINOSAUR_ATTACK_DAMAGE}
    · simpa using ih p
    · simpa using ih p

theorem dinoLoop_no_overlap (cfg : Config) :
    ∀ (ds : List Dinosaur) (p : Player),
      (∀ d ∈ ds, ¬(pyInt d.x = pyInt p.x ∧ pyInt d.y = pyInt p.y)) →
      dinoLoop cfg ds p = (p, ds) := by
  intro ds
  induction ds with
  | nil => intro p _; rfl
  | cons d rest ih =>
    intro p h
    simp only [dinoLoop]
    rw [if_neg (h d (by simp))]
    rw [ih p (fun d' hd' => h d' (by simp [hd']))]

theorem itemLoop_no_overlap :
    ∀ (snap : List Item) (g : Game),
      (∀ it ∈ snap, ¬(pyInt it.x = pyInt g.player.x ∧ pyInt it.y = pyInt g.player.y)) →
      itemLoop snap g = g := by
  intro snap
  induction snap with
  | nil => intro g _; rfl
  | cons it rest ih =>
    intro g h
    simp only [itemLoop]
    rw [if_neg (h it (by simp))]
    exact ih g (fun it' hit' => h it' (by simp [hit']))

theorem check_collisions_eq (cfg : Config) (g : Game) :
    check_collisions cfg g =
      itemLoop (dinoCheck cfg (spikeCheck cfg (lavaCheck cfg g))).items
        (dinoCheck cfg (spikeCheck cfg (lavaCheck cfg g))) := rfl

theorem spikeCheck_noop (cfg : Config) (g : Game)
    (hs : ¬(cfg.SPIKES_ENABLED = true ∧ g.game_map (pyInt g.player.y) (pyInt g.player.x) = 5)) :
    spikeCheck cfg g = g := by
  unfold spikeCheck
  by_cases hen : cfg.SPIKES_ENABLED = true
  · rw [if_pos hen, if_neg (fun hmap => hs ⟨hen, hmap⟩)]
  · rw [if_neg hen]

theorem dinoCheck_noop (cfg : Config) (g : Game)
    (hd : ∀ d ∈ g.dinosaurs, ¬(pyInt d.x = pyInt g.player.x ∧ pyInt d.y = pyInt g.player.y)) :
    dinoCheck cfg g = g := by
  simp only [dinoCheck]
  rw [dinoLoop_no_overlap cfg g.dinosaurs g.player hd]

theorem check_collisions_lava_only (cfg : Config) (g : Game)
    (hl : (pyInt g.player.x, pyInt g.player.y) ∈ g.lava_fields)
    (hs : ¬(cfg.SPIKES_ENABLED = true ∧ g.game_map (pyInt g.player.y) (pyInt g.player.x) = 5))
    (hd : ∀ d ∈ g.dinosaurs, ¬(pyInt d.x = pyInt g.player.x ∧ pyInt d.y = pyInt g.player.y))
    (hi : ∀ it ∈ g.items, ¬(pyInt it.x = pyInt g.player.x ∧ pyInt it.y = pyInt g.player.y)) :
    check_collisions cfg g =
      {g with player := {g.player with hp := g.player.hp - cfg.LAVA_DAMAGE}} := by
  rw [check_collisions_eq]
  have h1 : lavaCheck cfg g =
      {g with player := {g.player with hp := g.player.hp - cfg.LAVA_DAMAGE}} := by
    unfold lavaCheck; rw [if_pos hl]
  have hs' : ¬(cfg.SPIKES_ENABLED = true ∧
      ({g with player := {g.player with hp := g.player.hp - cfg.LAVA_DAMAGE}} : Game).game_map
        (pyInt ({g with player := {g.player with hp := g.player.hp - cfg.LAVA_DAMAGE}} : Game).player.y)
        (pyInt ({g with player := {g.player with hp := g.player.hp - cfg.LAVA_DAMAGE}} : Game).player.x) = 5) := hs
  have hd' : ∀ d ∈ ({g with player := {g.player with hp := g.player.hp - cfg.LAVA_DAMAGE}} : Game).dinosaurs,
      ¬(pyInt d.x = pyInt ({g with player := {g.player with hp := g.player.hp - cfg.LAVA_DAMAGE}} : Game).player.x ∧
        pyInt d.y = pyInt ({g with player := {g.player with hp := g.player.hp - cfg.LAVA_DAMAGE}} : Game).player.y) := hd
  have hi' : ∀ it ∈ ({g with player := {g.player with hp := g.player.hp - cfg.LAVA_DAMAGE}} : Game).items,
      ¬(pyInt it.x = pyInt ({g with player := {g.player with hp := g.player.hp - cfg.LAVA_DAMAGE}} : Game).player.x ∧
        pyInt it.y = pyInt ({g with player := {g.player with hp := g.player.hp - cfg.LAVA_DAMAGE}} : Game).player.y) := hi
  rw [h1, spikeCheck_noop cfg _ hs', dinoCheck_noop cfg _ hd']
  exact itemLoop_no_overlap _ _ hi'

theorem dinoLoop_single_hit (cfg : Config) (d : Dinosaur) (p : Player)
    (hdx : pyInt d.x = pyInt p.x) (hdy : pyInt d.y = pyInt p.y)
    (hda : d.aggressive = true) (hrep : p.repellent_active = false) :
    dinoLoop cfg [d] p =
      ({p with hp := p.hp - cfg.DINOSAUR_ATTACK_DAMAGE}, [{d with just_attacked := true}]) := by
  simp only [dinoLoop]
  rw [if_pos ⟨hdx, hdy⟩, if_pos ⟨hda, hrep⟩]

theorem check_collisions_all_hazards (cfg : Config) (p : Player)
    (gm : ℤ → ℤ → ℕ) (lava : List (ℤ × ℤ)) (d : Dinosaur) (it : Item)
    (hl : (pyInt p.x, pyInt p.y) ∈ lava)
    (hsen : cfg.SPIKES_ENABLED = true)
    (hmap : gm (pyInt p.y) (pyInt p.x) = 5)
    (hdx : pyInt d.x = pyInt p.x) (hdy : pyInt d.y = pyInt p.y)
    (hda : d.aggressive = true) (hrep : p.repellent_active = false)
    (hix : pyInt it.x = pyInt p.x) (hiy : pyInt it.y = pyInt p.y) :
    (check_collisions cfg ⟨p, gm, lava, [d], [it]⟩).player.hp
        = p.hp - cfg.LAVA_DAMAGE - cfg.SPIKE_DAMAGE - cfg.DINOSAUR_ATTACK_DAMAGE ∧
    (check_collisions cfg ⟨p, gm, lava, [d], [it]⟩).player.inventory it.type
        = p.inventory it.type + 1 ∧
    (check_collisions cfg ⟨p, gm, lava, [d], [it]⟩).player.score = p.score + 10 ∧
    (check_collisions cfg ⟨p, gm, lava, [d], [it]⟩).items = [] ∧
    (check_collisions cfg ⟨p, gm, lava, [d], [it]⟩).dinosaurs
        = [{d with just_attacked := true}] := by
  have e1 : lavaCheck cfg (⟨p, gm, lava, [d], [it]⟩ : Game) =
      ⟨{p with hp := p.hp - cfg.LAVA_DAMAGE}, gm, lava, [d], [it]⟩ := by
    simp only [lavaCheck]
    rw [if_pos hl]
  have e2 : spikeCheck cfg (⟨{p with hp := p.hp - cfg.LAVA_DAMAGE}, gm, lava, [d], [it]⟩ : Game) =
      ⟨{p with hp := p.hp - cfg.LAVA_DAMAGE - cfg.SPIKE_DAMAGE}, gm, lava, [d], [it]⟩ := by
    simp only [spikeCheck]
    rw [if_pos hsen, if_pos hmap]
  have e3 : dinoCheck cfg
        (⟨{p with hp := p.hp - cfg.LAVA_DAMAGE - cfg.SPIKE_DAMAGE}, gm, lava, [d], [it]⟩ : Game) =
      ⟨{p with hp := p.hp - cfg.LAVA_DAMAGE - cfg.SPIKE_DAMAGE - cfg.DINOSAUR_ATTACK_DAMAGE},
        gm, lava, [{d with just_attacked := true}], [it]⟩ := by
    simp only [dinoCheck]
    rw [dinoLoop_single_hit cfg d
      {p with hp := p.hp - cfg.LAVA_DAMAGE - cfg.SPIKE_DAMAGE} hdx hdy hda hrep]
  have e4 : check_collisions cfg (⟨p, gm, lava, [d], [it]⟩ : Game) =
      pickupItem
        (⟨{p with hp := p.hp - cfg.LAVA_DAMAGE - cfg.SPIKE_DAMAGE - cfg.DINOSAUR_ATTACK_DAMAGE},
          gm, lava, [{d with just_attacked := true}], [it]⟩ : Game) it := by
    rw [check_collisions_eq, e1, e2, e3]
    simp only [itemLoop]
    rw [if_pos ⟨hix, hiy⟩]
  rw [e4]
  refine ⟨rfl, ?_, rfl, ?_, rfl⟩
  · simp [pickupItem, bumpInventory]
  · simp [pickupItem]

/-- C3.  With the player's integer tile in `game.lava_fields` and no
other hazard or item overlapping that tile, each `check_collisions`
call decreases `player.hp` by exactly `Config.LAVA_DAMAGE`, and three
consecutive calls decrease it by exactly `3 * LAVA_DAMAGE`; moreover
the lava hit does not short-circuit the spike, dinosaur and item
checks of the same call: in a state that additionally has a spike tile
under the player, one aggressive dinosaur on the tile (no repellent)
and one item on the tile, a single call applies lava, spike and
dinosaur damage, picks the item up and marks the dinosaur. -/
theorem check_collisions_lava_damage (cfg : Config) (g : Game)
    (p : Player) (gm : ℤ → ℤ → ℕ) (lava : List (ℤ × ℤ)) (d : Dinosaur) (it : Item)
    (hl : (pyInt g.player.x, pyInt g.player.y) ∈ g.lava_fields)
    (hs : ¬(cfg.SPIKES_ENABLED = true ∧ g.game_map (pyInt g.player.y) (pyInt g.player.x) = 5))
    (hd : ∀ d' ∈ g.dinosaurs, ¬(pyInt d'.x = pyInt g.player.x ∧ pyInt d'.y = pyInt g.player.y))
    (hi : ∀ it' ∈ g.items, ¬(pyInt it'.x = pyInt g.player.x ∧ pyInt it'.y = pyInt g.player.y))
    (h2l : (pyInt p.x, pyInt p.y) ∈ lava)
    (h2sen : cfg.SPIKES_ENABLED = true)
    (h2map : gm (pyInt p.y) (pyInt p.x) = 5)
    (h2dx : pyInt d.x = pyInt p.x) (h2dy : pyInt d.y = pyInt p.y)
    (h2da : d.aggressive = true) (h2rep : p.repellent_active = false)
    (h2ix : pyInt it.x = pyInt p.x) (h2iy : pyInt it.y = pyInt p.y) :
    (check_collisions cfg g).player.hp = g.player.hp - cfg.LAVA_DAMAGE ∧
    (check_collisions cfg (check_collisions cfg (check_collisions cfg g))).player.hp
        = g.player.hp - 3 * cfg.LAVA_DAMAGE ∧
    ((check_collisions cfg ⟨p, gm, lava, [d], [it]⟩).player.hp
        = p.hp - cfg.LAVA_DAMAGE - cfg.SPIKE_DAMAGE - cfg.DINOSAUR_ATTACK_DAMAGE ∧
     (check_collisions cfg ⟨p, gm, lava, [d], [it]⟩).player.inventory it.type
        = p.inventory it.type + 1 ∧
     (check_collisions cfg ⟨p, gm, lava, [d], [it]⟩).player.score = p.score + 10 ∧
     (check_collisions cfg ⟨p, gm, lava, [d], [it]⟩).items = [] ∧
     (check_collisions cfg ⟨p, gm, lava, [d], [it]⟩).dinosaurs
        = [{d with just_attacked := true}]) := by
  have s1 := check_collisions_lava_only cfg g hl hs hd hi
  have s2 := check_collisions_lava_only cfg
    {g with player := {g.player with hp := g.player.hp - cfg.LAVA_DAMAGE}} hl hs hd hi
  have s3 := check_collisions_lava_only cfg
    {g with player := {g.player with hp := g.player.hp - cfg.LAVA_DAMAGE - cfg.LAVA_DAMAGE}}
    hl hs hd hi
  refine ⟨by simp only [s1], ?_,
    check_collisions_all_hazards cfg p gm lava d it h2l h2sen h2map h2dx h2dy h2da h2rep h2ix h2iy⟩
  simp only [s1, s2, s3]
  ring

/-- Witness for C3: player at tile (2,3) on a lava field (config:
lava 10, spike 5, dinosaur 15); plain state for the pure-lava part and
a spike-tile state with one aggressive dinosaur and one potion for the
no-short-circuit part. -/
theorem check_collisions_lava_damage_witness :
    (check_collisions ⟨10, 5, 15, true, 32⟩
        ⟨⟨5/2, 7/2, 100, fun _ => 0, 0, false, none⟩, fun _ _ => 0, [(2, 3)], [], []⟩).player.hp
      = 100 - 10 ∧
    (check_collisions ⟨10, 5, 15, true, 32⟩ (check_collisions ⟨10, 5, 15, true, 32⟩
        (check_collisions ⟨10, 5, 15, true, 32⟩
          ⟨⟨5/2, 7/2, 100, fun _ => 0, 0, false, none⟩, fun _ _ => 0, [(2, 3)], [], []⟩))).player.hp
      = 100 - 3 * 10 ∧
    ((check_collisions ⟨10, 5, 15, true, 32⟩
        ⟨⟨5/2, 7/2, 100, fun _ => 0, 0, false, none⟩, fun _ _ => 5, [(2, 3)],
          [⟨0, 5/2, 7/2, true, false⟩], [⟨0, 5/2, 7/2, "potion"⟩]⟩).player.hp
        = 100 - 10 - 5 - 15 ∧
     (check_collisions ⟨10, 5, 15, true, 32⟩
        ⟨⟨5/2, 7/2, 100, fun _ => 0, 0, false, none⟩, fun _ _ => 5, [(2, 3)],
          [⟨0, 5/2, 7/2, true, false⟩], [⟨0, 5/2, 7/2, "potion"⟩]⟩).player.inventory "potion"
        = 0 + 1 ∧
     (check_collisions ⟨10, 5, 15, true, 32⟩
        ⟨⟨5/2, 7/2, 100, fun _ => 0, 0, false, none⟩, fun _ _ => 5, [(2, 3)],
          [⟨0, 5/2, 7/2, true, false⟩], [⟨0, 5/2, 7/2, "potion"⟩]⟩).player.score
        = 0 + 10 ∧
     (check_collisions ⟨10, 5, 15, true, 32⟩
        ⟨⟨5/2, 7/2, 100, fun _ => 0, 0, false, none⟩, fun _ _ => 5, [(2, 3)],
          [⟨0, 5/2, 7/2, true, false⟩], [⟨0, 5/2, 7/2, "potion"⟩]⟩).items = [] ∧
     (check_collisions ⟨10, 5, 15, true, 32⟩
        ⟨⟨5/2, 7/2, 100, fun _ => 0, 0, false, none⟩, fun _ _ => 5, [(2, 3)],
          [⟨0, 5/2, 7/2, true, false⟩], [⟨0, 5/2, 7/2, "potion"⟩]⟩).dinosaurs
        = [⟨0, 5/2, 7/2, true, true⟩]) :=
  check_collisions_lava_damage ⟨10, 5, 15, true, 32⟩
    ⟨⟨5/2, 7/2, 100, fun _ => 0, 0, false, none⟩, fun _ _ => 0, [(2, 3)], [], []⟩
    ⟨5/2, 7/2, 100, fun _ => 0, 0, false, none⟩ (fun _ _ => 5) [(2, 3)]
    ⟨0, 5/2, 7/2, true, false⟩ ⟨0, 5/2, 7/2, "potion"⟩
    (by norm_num [pyInt]) (by simp) (by simp) (by simp)
    (by norm_num [pyInt]) rfl rfl rfl rfl rfl rfl rfl rfl

/-- Boolean form of "item `it` sits on the tile `(px, py)`". -/
def onTileB (px py : ℤ) (it : Item) : Bool :=
  decide (pyInt it.x = px) && decide (pyInt it.y = py)

theorem lavaCheck_pres (cfg : Config) (g : Game) :
    (lavaCheck cfg g).items = g.items ∧ (lavaCheck cfg g).player.x = g.player.x ∧
    (lavaCheck cfg g).player.y = g.player.y ∧
    (lavaCheck cfg g).player.inventory = g.player.inventory ∧
    (lavaCheck cfg g).player.score = g.player.score := by
  unfold lavaCheck
  split <;> exact ⟨rfl, rfl, rfl, rfl, rfl⟩

theorem spikeCheck_pres (cfg : Config) (g : Game) :
    (spikeCheck cfg g).items = g.items ∧ (spikeCheck cfg g).player.x = g.player.x ∧
    (spikeCheck cfg g).player.y = g.player.y ∧
    (spikeCheck cfg g).player.inventory = g.player.inventory ∧
    (spikeCheck cfg g).player.score = g.player.score := by
  unfold spikeCheck
  split
  · split <;> exact ⟨rfl, rfl, rfl, rfl, rfl⟩
  · exact ⟨rfl, rfl, rfl, rfl, rfl⟩

theorem dinoCheck_pres (cfg : Config) (g : Game) :
    (dinoCheck cfg g).items = g.items ∧ (dinoCheck cfg g).player.x = g.player.x ∧
    (dinoCheck cfg g).player.y = g.player.y ∧
    (dinoCheck cfg g).player.inventory = g.player.inventory ∧
    (dinoCheck cfg g).player.score = g.player.score := by
  obtain ⟨hx, hy, hinv, hscore, _, _⟩ := dinoLoop_pres cfg g.dinosaurs g.player
  exact ⟨rfl, hx, hy, hinv, hscore⟩

theorem itemLoop_spec (px py : ℤ) :
    ∀ (snap : List Item) (g : Game),
      pyInt g.player.x = px → pyInt g.player.y = py →
      snap.Sublist g.items → g.items.Nodup →
      (itemLoop snap g).items
          = g.items.filter (fun x => !(decide (x ∈ snap) && onTileB px py x)) ∧
      (∀ t, (itemLoop snap g).player.inventory t
          = g.player.inventory t
            + (snap.filter (fun x => onTileB px py x && (x.type == t))).length) ∧
      (itemLoop snap g).player.score
          = g.player.score + 10 * (snap.filter (fun x => onTileB px py x)).length ∧
      (itemLoop snap g).player.x = g.player.x ∧
      (itemLoop snap g).player.y = g.player.y ∧
      (itemLoop snap g).player.hp = g.player.hp ∧
      (itemLoop snap g).dinosaurs = g.dinosaurs := by
  intro snap
  induction snap with
  | nil =>
    intro g hx hy hsub hnd
    refine ⟨?_, ?_, ?_, rfl, rfl, rfl, rfl⟩
    · simp [itemLoop]
    · intro t; simp [itemLoop]
    · simp [itemLoop]
  | cons it0 rest ih =>
    intro g hx hy hsub hnd
    by_cases hOn : pyInt it0.x = pyInt g.player.x ∧ pyInt it0.y = pyInt g.player.y
    · have hOnB : onTileB px py it0 = true := by
        simp only [onTileB, Bool.and_eq_true, decide_eq_true_eq]
        exact ⟨hOn.1.trans hx, hOn.2.trans hy⟩
      have hstep : itemLoop (it0 :: rest) g = itemLoop rest (pickupItem g it0) := by
        simp only [itemLoop]; rw [if_pos hOn]
      have hub : it0 ∉ rest := (List.nodup_cons.mp (List.Nodup.sublist hsub hnd)).1
      have herase : g.items.erase it0 = g.items.filter (fun x => x != it0) :=
        List.Nodup.erase_eq_filter hnd it0
      have hsub' : rest.Sublist (pickupItem g it0).items := by
        show List.Sublist rest (g.items.erase it0)
        rw [herase]
        have h5 : rest.filter (fun x => x != it0) = rest :=
          List.filter_eq_self.mpr (fun a ha => by
            simp only [bne_iff_ne, ne_eq]
            exact fun h => hub (h ▸ ha))
        have h6 := List.Sublist.filter (fun x => x != it0)
          (List.sublist_of_cons_sublist hsub)
        rw [h5] at h6
        exact h6
      have hnd' : (pickupItem g it0).items.Nodup := by
        show (g.items.erase it0).Nodup
        exact List.Nodup.erase it0 hnd
      obtain ⟨I1, I2, I3, I4, I5, I6, I7⟩ := ih (pickupItem g it0) hx hy hsub' hnd'
      rw [hstep]
      refine ⟨?_, ?_, ?_, I4, I5, I6, I7⟩
      · rw [I1]
        simp only [pickupItem]
        rw [herase, List.filter_filter]
        refine List.filter_congr ?_
        intro x hxmem
        by_cases hxe : x = it0
        · subst hxe
          simp [hOnB]
        · simp [hxe, List.mem_cons]
      · intro t
        rw [I2 t]
        simp only [pickupItem, bumpInventory, List.filter_cons, hOnB, Bool.true_and]
        by_cases ht : t = it0.type
        · have hbe : (it0.type == t) = true := beq_iff_eq.mpr ht.symm
          simp [ht, hbe]
          omega
        · have hbe : (it0.type == t) = false :=
            beq_eq_false_iff_ne.mpr (fun h => ht h.symm)
          simp [if_neg ht, hbe]
      · rw [I3]
        simp only [pickupItem, List.filter_cons, hOnB, if_true, List.length_cons]
        push_cast
        ring
    · have hOnB : onTileB px py it0 = false := by
        rcases Decidable.em (pyInt it0.x = px) with h1 | h1
        · rcases Decidable.em (pyInt it0.y = py) with h2 | h2
          · exact absurd ⟨h1.trans hx.symm, h2.trans hy.symm⟩ hOn
          · simp [onTileB, h2]
        · simp [onTileB, h1]
      have hstep : itemLoop (it0 :: rest) g = itemLoop rest g := by
        simp only [itemLoop]; rw [if_neg hOn]
      obtain ⟨I1, I2, I3, I4, I5, I6, I7⟩ :=
        ih g hx hy (List.sublist_of_cons_sublist hsub) hnd
      rw [hstep]
      refine ⟨?_, ?_, ?_, I4, I5, I6, I7⟩
      · rw [I1]
        refine List.filter_congr ?_
        intro x hxmem
        by_cases hxe : x = it0
        · subst hxe; simp [hOnB]
        · simp [hxe, List.mem_cons]
      · intro t
        rw [I2 t]
        simp [List.filter_cons, hOnB]
      · rw [I3]
        simp [List.filter_cons, hOnB]

/-- C4.  In one `check_collisions` call every item on the player's
integer tile is picked up: it is removed from `game.items` (exactly
the items off the tile remain, in order), `player.inventory[type]`
grows by exactly one per picked-up item of that type, and
`player.score` grows by exactly 10 per picked-up item.  The `Nodup`
hypothesis renders Python object identity of the live item list. -/
theorem check_collisions_item_pickup (cfg : Config) (g : Game) (hnd : g.items.Nodup) :
    (check_collisions cfg g).items
        = g.items.filter (fun x => !(onTileB (pyInt g.player.x) (pyInt g.player.y) x)) ∧
    (∀ t, (check_collisions cfg g).player.inventory t
        = g.player.inventory t
          + (g.items.filter (fun x =>
              onTileB (pyInt g.player.x) (pyInt g.player.y) x && (x.type == t))).length) ∧
    (check_collisions cfg g).player.score
        = g.player.score
          + 10 * (g.items.filter (fun x =>
              onTileB (pyInt g.player.x) (pyInt g.player.y) x)).length := by
  obtain ⟨L1, L2, L3, L4, L5⟩ := lavaCheck_pres cfg g
  obtain ⟨S1, S2, S3, S4, S5⟩ := spikeCheck_pres cfg (lavaCheck cfg g)
  obtain ⟨D1, D2, D3, D4, D5⟩ := dinoCheck_pres cfg (spikeCheck cfg (lavaCheck cfg g))
  have hitems : (dinoCheck cfg (spikeCheck cfg (lavaCheck cfg g))).items = g.items := by
    rw [D1, S1, L1]
  have hpx : (dinoCheck cfg (spikeCheck cfg (lavaCheck cfg g))).player.x = g.player.x := by
    rw [D2, S2, L2]
  have hpy : (dinoCheck cfg (spikeCheck cfg (lavaCheck cfg g))).player.y = g.player.y := by
    rw [D3, S3, L3]
  have hinv : (dinoCheck cfg (spikeCheck cfg (lavaCheck cfg g))).player.inventory
      = g.player.inventory := by rw [D4, S4, L4]
  have hscore : (dinoCheck cfg (spikeCheck cfg (lavaCheck cfg g))).player.score
      = g.player.score := by rw [D5, S5, L5]
  have hnd3 : (dinoCheck cfg (spikeCheck cfg (lavaCheck cfg g))).items.Nodup := by
    rw [hitems]; exact hnd
  obtain ⟨P1, P2, P3, _, _, _, _⟩ :=
    itemLoop_spec (pyInt g.player.x) (pyInt g.player.y)
      (dinoCheck cfg (spikeCheck cfg (lavaCheck cfg g))).items
      (dinoCheck cfg (spikeCheck cfg (lavaCheck cfg g)))
      (by rw [hpx]) (by rw [hpy]) (List.Sublist.refl _) hnd3
  have hck := check_collisions_eq cfg g
  refine ⟨?_, ?_, ?_⟩
  · rw [hck, P1, hitems]
    refine List.filter_congr ?_
    intro x hx
    simp [hx]
  · intro t
    rw [hck, P2 t, hitems, hinv]
  · rw [hck, P3, hitems, hscore]

/-- Witness for C4: a potion on the player's tile and a repellent off
it; only the potion is picked up. -/
theorem check_collisions_item_pickup_witness :
    (check_collisions ⟨10, 5, 15, true, 32⟩
        ⟨⟨5/2, 7/2, 100, fun _ => 0, 0, false, none⟩, fun _ _ => 0, [],
          [], [⟨0, 5/2, 7/2, "potion"⟩, ⟨1, 9, 9, "repellent"⟩]⟩).items
        = [⟨0, 5/2, 7/2, "potion"⟩, ⟨1, 9, 9, "repellent"⟩].filter
            (fun x => !(onTileB (pyInt (5/2)) (pyInt (7/2)) x)) ∧
    (∀ t, (check_collisions ⟨10, 5, 15, true, 32⟩
        ⟨⟨5/2, 7/2, 100, fun _ => 0, 0, false, none⟩, fun _ _ => 0, [],
          [], [⟨0, 5/2, 7/2, "potion"⟩, ⟨1, 9, 9, "repellent"⟩]⟩).player.inventory t
        = 0 + ([⟨0, 5/2, 7/2, "potion"⟩, ⟨1, 9, 9, "repellent"⟩].filter
            (fun x => onTileB (pyInt (5/2)) (pyInt (7/2)) x && (x.type == t))).length) ∧
    (check_collisions ⟨10, 5, 15, true, 32⟩
        ⟨⟨5/2, 7/2, 100, fun _ => 0, 0, false, none⟩, fun _ _ => 0, [],
          [], [⟨0, 5/2, 7/2, "potion"⟩, ⟨1, 9, 9, "repellent"⟩]⟩).player.score
        = 0 + 10 * ([⟨0, 5/2, 7/2, "potion"⟩, ⟨1, 9, 9, "repellent"⟩].filter
            (fun x => onTileB (pyInt (5/2)) (pyInt (7/2)) x)).length :=
  check_collisions_item_pickup ⟨10, 5, 15, true, 32⟩
    ⟨⟨5/2, 7/2, 100, fun _ => 0, 0, false, none⟩, fun _ _ => 0, [],
      [], [⟨0, 5/2, 7/2, "potion"⟩, ⟨1, 9, 9, "repellent"⟩]⟩
    (by norm_num [List.nodup_cons, Item.mk.injEq])

/-!
## C5 — particle alpha (`Particle.update`, src/engine/particle_system.py lines 40-60)

`Particle.update` performs Euler integration, ages the particle and
sets `alpha = int(255 * (1 - age/lifetime))` — with no clamping: once
`age` exceeds `lifetime` the stored alpha is negative (the renderer
skips particles with `alpha <= 0`, and `ParticleSystem.update` drops
particles whose update returned `False`).
-/

theorem pyInt_intCast (z : ℤ) : pyInt (z : ℚ) = z := by
  unfold pyInt
  by_cases h : 0 ≤ (z : ℚ)
  · rw [if_pos h, Int.floor_intCast]
  · rw [if_neg h, Int.ceil_intCast]

/-- A particle, fields in `Particle.__init__` order. -/
structure Particle where
  x : ℚ
  y : ℚ
  vx : ℚ
  vy : ℚ
  lifetime : ℚ
  age : ℚ
  color : ℕ × ℕ × ℕ
  size : ℚ
  gravity : ℚ
  alpha : ℤ

/-- `Particle.update(dt)`: Euler integration, aging, linear alpha fade
(truncated by `int(...)`, not clamped), and the liveness result
`age < lifetime`. -/
def Particle.update (p : Particle) (dt : ℚ) : Particle × Bool :=
  let age := p.age + dt
  ({ p with
      x := p.x + p.vx * dt,
      y := p.y + p.vy * dt,
      vy := p.vy + p.gravity * dt,
      age := age,
      alpha := pyInt (255 * (1 - age / p.lifetime)) },
   decide (age < p.lifetime))

/-- The particle states after each of a sequence of `update` calls. -/
def particleTrajectory (p : Particle) : List ℚ → List Particle
  | [] => []
  | d :: ds =>
    let p1 := (p.update d).1
    p1 :: particleTrajectory p1 ds

/-- `alpha` as a function of lifetime and age. -/
def alphaOf (L age : ℚ) : ℤ := pyInt (255 * (1 - age / L))

theorem alphaOf_mono (L : ℚ) (hL : 0 < L) {a b : ℚ} (h : a ≤ b) :
    alphaOf L b ≤ alphaOf L a := by
  apply pyInt_mono
  have hdiv : a / L ≤ b / L := (div_le_div_iff_of_pos_right hL).mpr h
  linarith

theorem particleTrajectory_spec :
    ∀ (dts : List ℚ) (p : Particle), 0 < p.lifetime → 0 ≤ p.age →
      (∀ d ∈ dts, 0 < d) →
      (∀ q ∈ particleTrajectory p dts,
        q.lifetime = p.lifetime ∧ p.age ≤ q.age ∧
        q.alpha = alphaOf p.lifetime q.age) ∧
      List.Chain' (fun a b => b.alpha ≤ a.alpha) (particleTrajectory p dts) := by
  intro dts
  induction dts with
  | nil =>
    intro p _ _ _
    exact ⟨by simp [particleTrajectory], by simp [particleTrajectory]⟩
  | cons d ds ih =>
    intro p hL hage hd
    have hd0 : 0 < d := hd d (by simp)
    have hds : ∀ x ∈ ds, 0 < x := fun x hx => hd x (by simp [hx])
    have hL1 : 0 < ((p.update d).1).lifetime := hL
    have hage1 : 0 ≤ ((p.update d).1).age := by
      show 0 ≤ p.age + d
      linarith
    obtain ⟨IH1, IH2⟩ := ih (p.update d).1 hL1 hage1 hds
    constructor
    · intro q hq
      simp only [particleTrajectory, List.mem_cons] at hq
      rcases hq with rfl | hq
      · exact ⟨rfl, by show p.age ≤ p.age + d; linarith, rfl⟩
      · obtain ⟨e1, e2, e3⟩ := IH1 q hq
        exact ⟨e1, le_trans (by show p.age ≤ p.age + d; linarith) e2, e3⟩
    · show List.Chain' _ ((p.update d).1 :: particleTrajectory (p.update d).1 ds)
      rw [List.chain'_cons']
      refine ⟨?_, IH2⟩
      intro b hb
      obtain ⟨e1, e2, e3⟩ := IH1 b (List.mem_of_mem_head? hb)
      rw [e3]
      show alphaOf p.lifetime b.age ≤ alphaOf p.lifetime (p.age + d)
      exact alphaOf_mono p.lifetime hL e2

/-- Counterexample for C5 as stated: a particle with `lifetime = 1`
updated once with `dt = 2 > 0` stores `alpha = -255`, which is
negative — the code never clamps `alpha` at zero. -/
theorem particle_alpha_negative_counterexample :
    ((Particle.update ⟨0, 0, 0, 0, 1, 0, (255, 255, 255), 2, 0, 255⟩ 2).1).alpha = -255 ∧
    ((Particle.update ⟨0, 0, 0, 0, 1, 0, (255, 255, 255), 2, 0, 255⟩ 2).1).alpha < 0 := by
  have h : ((Particle.update ⟨0, 0, 0, 0, 1, 0, (255, 255, 255), 2, 0, 255⟩ 2).1).alpha
      = pyInt (255 * (1 - (0 + 2) / 1)) := rfl
  have h2 : (255 : ℚ) * (1 - (0 + 2) / 1) = ((-255 : ℤ) : ℚ) := by norm_num
  rw [h, h2, pyInt_intCast]
  omega

/-- C5 (amended).  After every `update(dt)` in a sequence of positive
time steps, a particle's `alpha` equals the truncation
`int(255 * (1 - age/lifetime))` — the code performs no non-negative
clamping, so alpha can go negative once `age` exceeds `lifetime` —
and alpha is monotonically non-increasing across successive updates. -/
theorem particle_alpha_fade (p : Particle) (dts : List ℚ)
    (hL : 0 < p.lifetime) (hage : 0 ≤ p.age) (hdts : ∀ d ∈ dts, 0 < d) :
    (∀ q ∈ particleTrajectory p dts,
      q.alpha = pyInt (255 * (1 - q.age / q.lifetime))) ∧
    List.Chain' (fun a b => b.alpha ≤ a.alpha) (particleTrajectory p dts) := by
  obtain ⟨H1, H2⟩ := particleTrajectory_spec dts p hL hage hdts
  refine ⟨?_, H2⟩
  intro q hq
  obtain ⟨e1, _, e3⟩ := H1 q hq
  rw [e3]
  simp only [alphaOf]
  rw [e1]

/-- Witness for C5's amended statement: two quarter-second updates of
a fresh 1-second particle. -/
theorem particle_alpha_fade_witness :
    (∀ q ∈ particleTrajectory ⟨0, 0, 0, 0, 1, 0, (255, 255, 255), 2, 0, 255⟩ [1/4, 1/4],
      q.alpha = pyInt (255 * (1 - q.age / q.lifetime))) ∧
    List.Chain' (fun a b => b.alpha ≤ a.alpha)
      (particleTrajectory ⟨0, 0, 0, 0, 1, 0, (255, 255, 255), 2, 0, 255⟩ [1/4, 1/4]) :=
  particle_alpha_fade ⟨0, 0, 0, 0, 1, 0, (255, 255, 255), 2, 0, 255⟩ [1/4, 1/4]
    (by norm_num) (by norm_num)
    (by intro d hd; simp at hd; subst hd; norm_num)

/-!
## C6 — SpatialGrid (`insert` / `query_range`, src/engine/spatial_grid.py)

The grid dictionary is embedded as a total function from cells to
bucket lists (a missing key reads as the empty bucket, exactly what
the `if key in self.grid` guards produce).  `id` renders Python object
identity of entities.  `int(x // cell_size)` on a float is the floor
of `x / cell_size`.
-/

/-- An entity as the grid sees it: something with `x` and `y`. -/
structure GridEntity where
  id : ℕ
  x : ℚ
  y : ℚ
deriving DecidableEq

/-- The bucket cell of an entity: `(int(x // cell_size), int(y // cell_size))`. -/
def cellOf (cs : ℤ) (e : GridEntity) : ℤ × ℤ :=
  (⌊e.x / (cs : ℚ)⌋, ⌊e.y / (cs : ℚ)⌋)

/-- `SpatialGrid.clear()` / a fresh grid: every bucket empty. -/
def emptyGrid : (ℤ × ℤ) → List GridEntity := fun _ => []

/-- `SpatialGrid.insert(entity)`: append the entity to its cell's bucket. -/
def gridInsert (cs : ℤ) (g : (ℤ × ℤ) → List GridEntity) (e : GridEntity) :
    (ℤ × ℤ) → List GridEntity :=
  fun c => if c = cellOf cs e then g c ++ [e] else g c

/-- The grid after inserting each entity of `es` once into a cleared grid. -/
def gridOf (cs : ℤ) (es : List GridEntity) : (ℤ × ℤ) → List GridEntity :=
  es.foldl (gridInsert cs) emptyGrid

/-- Python `range(a, b + 1)` over integers. -/
def intRange (a b : ℤ) : List ℤ :=
  (List.range (b + 1 - a).toNat).map (fun i : ℕ => a + (i : ℤ))

/-- `SpatialGrid.query_range(start_x, start_y, end_x, end_y)`: collect
the buckets of every cell in the rectangle of cells, rows outer,
columns inner. -/
def query_range (cs : ℤ) (g : (ℤ × ℤ) → List GridEntity)
    (x0 y0 x1 y1 : ℚ) : List GridEntity :=
  (intRange ⌊y0 / (cs : ℚ)⌋ ⌊y1 / (cs : ℚ)⌋).flatMap fun cy =>
    (intRange ⌊x0 / (cs : ℚ)⌋ ⌊x1 / (cs : ℚ)⌋).flatMap fun cx =>
      g (cx, cy)

theorem gridOf_bucket (cs : ℤ) :
    ∀ (es : List GridEntity) (g0 : (ℤ × ℤ) → List GridEntity) (c : ℤ × ℤ),
      (es.foldl (gridInsert cs) g0) c
        = g0 c ++ es.filter (fun e => decide (cellOf cs e = c)) := by
  intro es
  induction es with
  | nil => intro g0 c; simp
  | cons e rest ih =>
    intro g0 c
    rw [List.foldl_cons, ih]
    simp only [gridInsert, List.filter_cons]
    by_cases hc : cellOf cs e = c
    · rw [if_pos hc.symm, if_pos (by simpa using hc)]
      simp
    · rw [if_neg (fun h => hc h.symm), if_neg (by simpa using hc)]

theorem count_flatMap_eq_sum {α β : Type} [DecidableEq β]
    (l : List α) (f : α → List β) (b : β) :
    (l.flatMap f).count b = (l.map (fun x => (f x).count b)).sum := by
  induction l with
  | nil => rfl
  | cons a rest ih =>
    rw [List.flatMap_cons, List.count_append, ih, List.map_cons, List.sum_cons]

theorem count_filter_eq {α : Type} [DecidableEq α] (p : α → Bool) (a : α) (l : List α) :
    (l.filter p).count a = if p a = true then l.count a else 0 := by
  by_cases h : p a = true
  · rw [if_pos h, List.count_filter h]
  · rw [if_neg h, List.count_eq_zero]
    intro hmem
    exact h (List.of_mem_filter hmem)

theorem sum_map_ite_nodup {α : Type} [DecidableEq α] (t : α) (k : ℕ) :
    ∀ (l : List α), l.Nodup →
      (l.map (fun x => if t = x then k else 0)).sum = if t ∈ l then k else 0 := by
  intro l
  induction l with
  | nil => intro _; simp
  | cons a rest ih =>
    intro hnd
    obtain ⟨ha, hrest⟩ := List.nodup_cons.mp hnd
    simp only [List.map_cons, List.sum_cons]
    rw [ih hrest]
    by_cases hat : t = a
    · subst hat
      rw [if_pos rfl, if_neg ha, if_pos (List.mem_cons_self t rest)]
      omega
    · have hnotc : t ∈ a :: rest ↔ t ∈ rest := by
        simp only [List.mem_cons]
        exact ⟨fun h => h.resolve_left hat, Or.inr⟩
      by_cases hmem : t ∈ rest
      · rw [if_neg hat, if_pos hmem, if_pos (hnotc.mpr hmem)]
        omega
      · rw [if_neg hat, if_neg hmem, if_neg (fun h => hmem (hnotc.mp h))]

theorem mem_intRange {a b x : ℤ} : x ∈ intRange a b ↔ a ≤ x ∧ x ≤ b := by
  unfold intRange
  rw [List.mem_map]
  constructor
  · rintro ⟨i, hi, rfl⟩
    rw [List.mem_range] at hi
    omega
  · rintro ⟨h1, h2⟩
    refine ⟨(x - a).toNat, ?_, ?_⟩
    · rw [List.mem_range]; omega
    · omega

theorem intRange_nodup (a b : ℤ) : (intRange a b).Nodup := by
  unfold intRange
  have hinj : Function.Injective (fun i : ℕ => a + (i : ℤ)) := by
    intro i j h
    simp only at h
    omega
  exact List.Nodup.map hinj (List.nodup_range _)

theorem gridOf_bucket_count (cs : ℤ) (es : List GridEntity) (a : GridEntity) (c : ℤ × ℤ) :
    ((gridOf cs es) c).count a = if cellOf cs a = c then es.count a else 0 := by
  unfold gridOf
  rw [gridOf_bucket]
  show (([] : List GridEntity) ++ _).count a = _
  rw [List.nil_append, count_filter_eq]
  by_cases h : cellOf cs a = c
  · rw [if_pos (by simpa using h), if_pos h]
  · rw [if_neg (by simpa using h), if_neg h]

/-- C6.  Inserting a duplicate-free set of entities once each into a
cleared grid and querying a rectangle whose cell range covers every
occupied cell returns exactly the inserted entities: the result is a
permutation of the input (no duplicates, no omissions). -/
theorem spatialGrid_query_range_complete (cs : ℤ) (es : List GridEntity)
    (x0 y0 x1 y1 : ℚ) (hnd : es.Nodup)
    (hcov : ∀ e ∈ es,
      ⌊x0 / (cs : ℚ)⌋ ≤ (cellOf cs e).1 ∧ (cellOf cs e).1 ≤ ⌊x1 / (cs : ℚ)⌋ ∧
      ⌊y0 / (cs : ℚ)⌋ ≤ (cellOf cs e).2 ∧ (cellOf cs e).2 ≤ ⌊y1 / (cs : ℚ)⌋) :
    (query_range cs (gridOf cs es) x0 y0 x1 y1).Perm es ∧
    (query_range cs (gridOf cs es) x0 y0 x1 y1).Nodup := by
  have hperm : (query_range cs (gridOf cs es) x0 y0 x1 y1).Perm es := by
    rw [List.perm_iff_count]
    intro a
    unfold query_range
    rw [count_flatMap_eq_sum]
    have hinner : ∀ cy : ℤ,
        ((intRange ⌊x0 / (cs : ℚ)⌋ ⌊x1 / (cs : ℚ)⌋).flatMap
          (fun cx => (gridOf cs es) (cx, cy))).count a
        = if (cellOf cs a).2 = cy then
            (if (cellOf cs a).1 ∈ intRange ⌊x0 / (cs : ℚ)⌋ ⌊x1 / (cs : ℚ)⌋
              then es.count a else 0)
          else 0 := by
      intro cy
      rw [count_flatMap_eq_sum]
      have hmapeq : (intRange ⌊x0 / (cs : ℚ)⌋ ⌊x1 / (cs : ℚ)⌋).map
            (fun cx => ((gridOf cs es) (cx, cy)).count a)
          = (intRange ⌊x0 / (cs : ℚ)⌋ ⌊x1 / (cs : ℚ)⌋).map
            (fun cx => if (cellOf cs a).2 = cy then
              (if (cellOf cs a).1 = cx then es.count a else 0) else 0) := by
        refine List.map_congr_left ?_
        intro cx _
        rw [gridOf_bucket_count]
        by_cases h2 : (cellOf cs a).2 = cy
        · by_cases h1 : (cellOf cs a).1 = cx
          · rw [if_pos (Prod.ext h1 h2), if_pos h2, if_pos h1]
          · rw [if_neg (fun he => h1 (congrArg Prod.fst he)), if_pos h2, if_neg h1]
        · rw [if_neg (fun he => h2 (congrArg Prod.snd he)), if_neg h2]
      rw [hmapeq]
      by_cases h2 : (cellOf cs a).2 = cy
      · simp only [if_pos h2]
        rw [sum_map_ite_nodup _ _ _ (intRange_nodup _ _)]
      · simp only [if_neg h2]
        simp
    rw [List.map_congr_left (fun cy _ => hinner cy)]
    rw [sum_map_ite_nodup _ _ _ (intRange_nodup _ _)]
    by_cases hmem : a ∈ es
    · obtain ⟨c1, c2, c3, c4⟩ := hcov a hmem
      rw [if_pos (mem_intRange.mpr ⟨c3, c4⟩), if_pos (mem_intRange.mpr ⟨c1, c2⟩)]
    · have hz : es.count a = 0 := List.count_eq_zero.mpr hmem
      rw [hz]
      by_cases hy : (cellOf cs a).2 ∈ intRange ⌊y0 / (cs : ℚ)⌋ ⌊y1 / (cs : ℚ)⌋
      · rw [if_pos hy]
        by_cases hx : (cellOf cs a).1 ∈ intRange ⌊x0 / (cs : ℚ)⌋ ⌊x1 / (cs : ℚ)⌋
        · rw [if_pos hx]
        · rw [if_neg hx]
      · rw [if_neg hy]
  exact ⟨hperm, hperm.symm.nodup hnd⟩

/-- Witness for C6: two entities in different cells of a
cell-size-10 grid, query covering cells (0,0)–(1,1). -/
theorem spatialGrid_query_range_complete_witness :
    (query_range 10 (gridOf 10 [⟨0, 1/2, 1/2⟩, ⟨1, 15, 3⟩]) 0 0 19 19).Perm
      [⟨0, 1/2, 1/2⟩, ⟨1, 15, 3⟩] ∧
    (query_range 10 (gridOf 10 [⟨0, 1/2, 1/2⟩, ⟨1, 15, 3⟩]) 0 0 19 19).Nodup :=
  spatialGrid_query_range_complete 10 [⟨0, 1/2, 1/2⟩, ⟨1, 15, 3⟩] 0 0 19 19
    (by norm_num [List.nodup_cons, GridEntity.mk.injEq])
    (by
      intro e he
      simp only [List.mem_cons, List.not_mem_nil, or_false] at he
      rcases he with rfl | rfl <;> norm_num [cellOf])

/-!
## C7 / C8 — Camera (src/engine/camera.py)

The camera record carries the `Camera.__init__` fields; `pygame.Rect`
bounds become an optional integer rectangle.  The random direction of
the shake offset (`random.uniform(0, 2π)` fed through cos/sin) is an
explicit oracle argument `rdir` to `Camera.update` — it multiplies the
computed shake amount exactly as `(cos angle, sin angle)` does in the
source, and the claims below only concern states with no active
shake.
-/

/-- `pygame.Rect` as used by `set_bounds`/`update`. -/
structure Rect where
  x : ℤ
  y : ℤ
  w : ℤ
  h : ℤ
deriving DecidableEq

/-- The camera state, fields in `Camera.__init__` order. -/
structure Camera where
  width : ℤ
  height : ℤ
  x : ℚ
  y : ℚ
  target_x : ℚ
  target_y : ℚ
  smoothness : ℚ
  shake_intensity : ℚ
  shake_duration : ℚ
  shake_timer : ℚ
  shake_offset_x : ℚ
  shake_offset_y : ℚ
  shake_falloff : String
  zoom : ℚ
  target_zoom : ℚ
  zoom_speed : ℚ
  bounds_rect : Option Rect
  dead_zone_width : ℤ
  dead_zone_height : ℤ
  look_ahead_distance : ℚ
  look_ahead_smoothness : ℚ

/-- `Camera.update(dt)` (src/engine/camera.py lines 131-194): zoom
easing, target camera position, dead zone, exponential smoothing,
bounds clamp, shake decay.  `rdir` is the unit direction drawn for the
shake offset. -/
def Camera.update (cfg : Config) (cam : Camera) (dt : ℚ) (rdir : ℚ × ℚ) : Camera :=
  let zoom :=
    if (1 : ℚ)/100 < |cam.zoom - cam.target_zoom| then
      cam.zoom + (cam.target_zoom - cam.zoom) * cam.zoom_speed
    else cam.zoom
  let target_cam_x := cam.target_x * cfg.TILE_SIZE - ((Int.fdiv cam.width 2 : ℤ) : ℚ)
  let target_cam_y := cam.target_y * cfg.TILE_SIZE - ((Int.fdiv cam.height 2 : ℤ) : ℚ)
  let tc :=
    if 0 < cam.dead_zone_width ∨ 0 < cam.dead_zone_height then
      let center_x := cam.x + ((Int.fdiv cam.width 2 : ℤ) : ℚ)
      let center_y := cam.y + ((Int.fdiv cam.height 2 : ℤ) : ℚ)
      let target_center_x := target_cam_x + ((Int.fdiv cam.width 2 : ℤ) : ℚ)
      let target_center_y := target_cam_y + ((Int.fdiv cam.height 2 : ℤ) : ℚ)
      let dx := target_center_x - center_x
      let dy := target_center_y - center_y
      ((if |dx| < ((Int.fdiv cam.dead_zone_width 2 : ℤ) : ℚ) then cam.x else target_cam_x),
       (if |dy| < ((Int.fdiv cam.dead_zone_height 2 : ℤ) : ℚ) then cam.y else target_cam_y))
    else (target_cam_x, target_cam_y)
  let x1 := cam.x + (tc.1 - cam.x) * cam.smoothness
  let y1 := cam.y + (tc.2 - cam.y) * cam.smoothness
  let xy :=
    match cam.bounds_rect with
    | some r =>
      let view_width := (cam.width : ℚ) / zoom
      let view_height := (cam.height : ℚ) / zoom
      (max (r.x : ℚ) (min x1 (((r.x + r.w : ℤ) : ℚ) - view_width)),
       max (r.y : ℚ) (min y1 (((r.y + r.h : ℤ) : ℚ) - view_height)))
    | none => (x1, y1)
  if 0 < cam.shake_timer then
    let timer := cam.shake_timer - dt
    let amount :=
      if cam.shake_falloff = "exponential" then
        cam.shake_intensity * (timer / cam.shake_duration) ^ 2
      else if cam.shake_falloff = "linear" then
        cam.shake_intensity * (timer / cam.shake_duration)
      else cam.shake_intensity
    { cam with
      zoom := zoom,
      x := xy.1,
      y := xy.2,
      shake_timer := timer,
      shake_offset_x := rdir.1 * amount,
      shake_offset_y := rdir.2 * amount }
  else
    { cam with
      zoom := zoom,
      x := xy.1,
      y := xy.2,
      shake_offset_x := 0,
      shake_offset_y := 0 }

/-- `Camera.apply(x, y)`: world tile coordinates to screen pixels,
with zoom and shake, truncated by `int(...)`. -/
def Camera.apply (cfg : Config) (cam : Camera) (x y : ℚ) : ℤ × ℤ :=
  (pyInt ((x * cfg.TILE_SIZE - cam.x) * cam.zoom + cam.shake_offset_x),
   pyInt ((y * cfg.TILE_SIZE - cam.y) * cam.zoom + cam.shake_offset_y))

/-- `Camera.world_to_screen`: alias for `apply`. -/
def Camera.world_to_screen (cfg : Config) (cam : Camera) (wx wy : ℚ) : ℤ × ℤ :=
  Camera.apply cfg cam wx wy

/-- `Camera.screen_to_world(sx, sy)`. -/
def Camera.screen_to_world (cfg : Config) (cam : Camera) (sx sy : ℤ) : ℚ × ℚ :=
  ((((sx : ℚ) - cam.shake_offset_x) / cam.zoom + cam.x) / cfg.TILE_SIZE,
   (((sy : ℚ) - cam.shake_offset_y) / cam.zoom + cam.y) / cfg.TILE_SIZE)

/-- C7.  With `zoom = 1` and both shake offsets zero,
`screen_to_world ∘ world_to_screen` reconstructs the world point up to
the `int(...)` truncation of `world_to_screen`: each coordinate is off
by at most `1 / TILE_SIZE`. -/
theorem camera_roundtrip (cfg : Config) (cam : Camera) (x y : ℚ)
    (hz : cam.zoom = 1) (hsx : cam.shake_offset_x = 0) (hsy : cam.shake_offset_y = 0)
    (hts : 0 < cfg.TILE_SIZE) :
    |(Camera.screen_to_world cfg cam (Camera.world_to_screen cfg cam x y).1
        (Camera.world_to_screen cfg cam x y).2).1 - x| ≤ 1 / cfg.TILE_SIZE ∧
    |(Camera.screen_to_world cfg cam (Camera.world_to_screen cfg cam x y).1
        (Camera.world_to_screen cfg cam x y).2).2 - y| ≤ 1 / cfg.TILE_SIZE := by
  have hts' : cfg.TILE_SIZE ≠ 0 := ne_of_gt hts
  constructor
  · have key : (Camera.screen_to_world cfg cam (Camera.world_to_screen cfg cam x y).1
        (Camera.world_to_screen cfg cam x y).2).1 - x
      = ((pyInt (x * cfg.TILE_SIZE - cam.x) : ℚ) - (x * cfg.TILE_SIZE - cam.x)) / cfg.TILE_SIZE := by
      simp only [Camera.screen_to_world, Camera.world_to_screen, Camera.apply,
        hz, hsx, hsy, mul_one, add_zero, sub_zero, div_one]
      field_simp
      ring
    rw [key, abs_div, abs_of_pos hts]
    exact (div_le_div_iff_of_pos_right hts).mpr (abs_pyInt_sub_le_one _)
  · have key : (Camera.screen_to_world cfg cam (Camera.world_to_screen cfg cam x y).1
        (Camera.world_to_screen cfg cam x y).2).2 - y
      = ((pyInt (y * cfg.TILE_SIZE - cam.y) : ℚ) - (y * cfg.TILE_SIZE - cam.y)) / cfg.TILE_SIZE := by
      simp only [Camera.screen_to_world, Camera.world_to_screen, Camera.apply,
        hz, hsx, hsy, mul_one, add_zero, sub_zero, div_one]
      field_simp
      ring
    rw [key, abs_div, abs_of_pos hts]
    exact (div_le_div_iff_of_pos_right hts).mpr (abs_pyInt_sub_le_one _)

/-- Witness for C7: TILE_SIZE 32, camera at (7, 3), round-tripping the
world point (5/2, 7/2). -/
theorem camera_roundtrip_witness :
    |(Camera.screen_to_world ⟨10, 5, 15, true, 32⟩
        ⟨800, 600, 7, 3, 0, 0, 11/50, 0, 0, 0, 0, 0, "linear", 1, 1, 1/10, none, 0, 0, 0, 1/10⟩
        (Camera.world_to_screen ⟨10, 5, 15, true, 32⟩
          ⟨800, 600, 7, 3, 0, 0, 11/50, 0, 0, 0, 0, 0, "linear", 1, 1, 1/10, none, 0, 0, 0, 1/10⟩
          (5/2) (7/2)).1
        (Camera.world_to_screen ⟨10, 5, 15, true, 32⟩
          ⟨800, 600, 7, 3, 0, 0, 11/50, 0, 0, 0, 0, 0, "linear", 1, 1, 1/10, none, 0, 0, 0, 1/10⟩
          (5/2) (7/2)).2).1 - 5/2| ≤ 1 / 32 ∧
    |(Camera.screen_to_world ⟨10, 5, 15, true, 32⟩
        ⟨800, 600, 7, 3, 0, 0, 11/50, 0, 0, 0, 0, 0, "linear", 1, 1, 1/10, none, 0, 0, 0, 1/10⟩
        (Camera.world_to_screen ⟨10, 5, 15, true, 32⟩
          ⟨800, 600, 7, 3, 0, 0, 11/50, 0, 0, 0, 0, 0, "linear", 1, 1, 1/10, none, 0, 0, 0, 1/10⟩
          (5/2) (7/2)).1
        (Camera.world_to_screen ⟨10, 5, 15, true, 32⟩
          ⟨800, 600, 7, 3, 0, 0, 11/50, 0, 0, 0, 0, 0, "linear", 1, 1, 1/10, none, 0, 0, 0, 1/10⟩
          (5/2) (7/2)).2).2 - 7/2| ≤ 1 / 32 :=
  camera_roundtrip ⟨10, 5, 15, true, 32⟩
    ⟨800, 600, 7, 3, 0, 0, 11/50, 0, 0, 0, 0, 0, "linear", 1, 1, 1/10, none, 0, 0, 0, 1/10⟩
    (5/2) (7/2) rfl rfl rfl (by norm_num)

/-- The target camera position `target * TILE_SIZE - width // 2`
computed inside `Camera.update`, x coordinate. -/
def camTargetX (cfg : Config) (cam : Camera) : ℚ :=
  cam.target_x * cfg.TILE_SIZE - ((Int.fdiv cam.width 2 : ℤ) : ℚ)

/-- The target camera position, y coordinate. -/
def camTargetY (cfg : Config) (cam : Camera) : ℚ :=
  cam.target_y * cfg.TILE_SIZE - ((Int.fdiv cam.height 2 : ℤ) : ℚ)

/-- Squared Euclidean distance from the camera position to the target
camera position derived from the target. -/
def camDist2 (cfg : Config) (cam : Camera) : ℚ :=
  (camTargetX cfg cam - cam.x) ^ 2 + (camTargetY cfg cam - cam.y) ^ 2

theorem camera_update_xy (cfg : Config) (cam : Camera) (dt : ℚ) (rdir : ℚ × ℚ)
    (hdzw : cam.dead_zone_width ≤ 0) (hdzh : cam.dead_zone_height ≤ 0)
    (hb : cam.bounds_rect = none) (hshake : cam.shake_timer ≤ 0) :
    (Camera.update cfg cam dt rdir).x
        = cam.x + (camTargetX cfg cam - cam.x) * cam.smoothness ∧
    (Camera.update cfg cam dt rdir).y
        = cam.y + (camTargetY cfg cam - cam.y) * cam.smoothness ∧
    (Camera.update cfg cam dt rdir).target_x = cam.target_x ∧
    (Camera.update cfg cam dt rdir).target_y = cam.target_y ∧
    (Camera.update cfg cam dt rdir).width = cam.width ∧
    (Camera.update cfg cam dt rdir).height = cam.height ∧
    (Camera.update cfg cam dt rdir).smoothness = cam.smoothness := by
  simp only [Camera.update, hb]
  rw [if_neg (not_or.mpr ⟨not_lt.mpr hdzw, not_lt.mpr hdzh⟩),
    if_neg (not_lt.mpr hshake)]
  exact ⟨rfl, rfl, rfl, rfl, rfl, rfl, rfl⟩

/-- Counterexample for C8 as stated: a camera already exactly at the
target camera position (smoothness 0.22 ∈ (0,1), no shake, no dead
zone, no bounds, stationary target).  `update` leaves the distance at
0, so the call does not strictly decrease it. -/
theorem camera_update_no_strict_decrease :
    camDist2 ⟨10, 5, 15, true, 32⟩
      ⟨800, 600, 0, 0, 25/2, 75/8, 11/50, 0, 0, 0, 0, 0, "linear",
        1, 1, 1/10, none, 0, 0, 0, 1/10⟩ = 0 ∧
    camDist2 ⟨10, 5, 15, true, 32⟩
      (Camera.update ⟨10, 5, 15, true, 32⟩
        ⟨800, 600, 0, 0, 25/2, 75/8, 11/50, 0, 0, 0, 0, 0, "linear",
          1, 1, 1/10, none, 0, 0, 0, 1/10⟩ (1/60) (1, 0)) = 0 ∧
    ¬(camDist2 ⟨10, 5, 15, true, 32⟩
        (Camera.update ⟨10, 5, 15, true, 32⟩
          ⟨800, 600, 0, 0, 25/2, 75/8, 11/50, 0, 0, 0, 0, 0, "linear",
            1, 1, 1/10, none, 0, 0, 0, 1/10⟩ (1/60) (1, 0))
      < camDist2 ⟨10, 5, 15, true, 32⟩
        ⟨800, 600, 0, 0, 25/2, 75/8, 11/50, 0, 0, 0, 0, 0, "linear",
          1, 1, 1/10, none, 0, 0, 0, 1/10⟩) := by
  have hf8 : ((Int.fdiv 800 2 : ℤ) : ℚ) = 400 := by
    have : Int.fdiv 800 2 = 400 := by decide
    rw [this]; norm_num
  have hf6 : ((Int.fdiv 600 2 : ℤ) : ℚ) = 300 := by
    have : Int.fdiv 600 2 = 300 := by decide
    rw [this]; norm_num
  have h1 : camDist2 ⟨10, 5, 15, true, 32⟩
      ⟨800, 600, 0, 0, 25/2, 75/8, 11/50, 0, 0, 0, 0, 0, "linear",
        1, 1, 1/10, none, 0, 0, 0, 1/10⟩ = 0 := by
    unfold camDist2 camTargetX camTargetY
    norm_num [hf8, hf6]
  obtain ⟨hx, hy, htx, hty, hw, hh, _⟩ := camera_update_xy ⟨10, 5, 15, true, 32⟩
    ⟨800, 600, 0, 0, 25/2, 75/8, 11/50, 0, 0, 0, 0, 0, "linear",
      1, 1, 1/10, none, 0, 0, 0, 1/10⟩ (1/60) (1, 0)
    (le_refl 0) (le_refl 0) rfl (le_refl 0)
  have h2 : camDist2 ⟨10, 5, 15, true, 32⟩
      (Camera.update ⟨10, 5, 15, true, 32⟩
        ⟨800, 600, 0, 0, 25/2, 75/8, 11/50, 0, 0, 0, 0, 0, "linear",
          1, 1, 1/10, none, 0, 0, 0, 1/10⟩ (1/60) (1, 0)) = 0 := by
    unfold camDist2 camTargetX camTargetY
    rw [htx, hty, hw, hh, hx, hy]
    unfold camTargetX camTargetY
    norm_num [hf8, hf6]
  refine ⟨h1, h2, ?_⟩
  rw [h1, h2]
  exact lt_irrefl 0

/-- C8 (amended).  For a camera with smoothness in (0,1), no active
shake, no dead zone and no bounds, one `Camera.update` call scales the
squared distance to the (stationary) target camera position by exactly
`(1 - smoothness)^2`; in particular the distance strictly decreases
whenever the camera is not already at the target camera position (and
only then — at distance zero it stays zero, which is why the claim's
unconditional "strictly decreases" fails). -/
theorem camera_update_distance_decay (cfg : Config) (cam : Camera) (dt : ℚ) (rdir : ℚ × ℚ)
    (hs0 : 0 < cam.smoothness) (hs1 : cam.smoothness < 1)
    (hshake : cam.shake_timer ≤ 0)
    (hdzw : cam.dead_zone_width ≤ 0) (hdzh : cam.dead_zone_height ≤ 0)
    (hb : cam.bounds_rect = none) :
    camDist2 cfg (Camera.update cfg cam dt rdir)
      = (1 - cam.smoothness) ^ 2 * camDist2 cfg cam ∧
    (camDist2 cfg cam ≠ 0 →
      camDist2 cfg (Camera.update cfg cam dt rdir) < camDist2 cfg cam) := by
  obtain ⟨hx, hy, htx, hty, hw, hh, _⟩ := camera_update_xy cfg cam dt rdir hdzw hdzh hb hshake
  have htcx : camTargetX cfg (Camera.update cfg cam dt rdir) = camTargetX cfg cam := by
    unfold camTargetX; rw [htx, hw]
  have htcy : camTargetY cfg (Camera.update cfg cam dt rdir) = camTargetY cfg cam := by
    unfold camTargetY; rw [hty, hh]
  have hmain : camDist2 cfg (Camera.update cfg cam dt rdir)
      = (1 - cam.smoothness) ^ 2 * camDist2 cfg cam := by
    unfold camDist2
    rw [htcx, htcy, hx, hy]
    ring
  refine ⟨hmain, ?_⟩
  intro hne
  have h0 : 0 ≤ camDist2 cfg cam := by unfold camDist2; positivity
  have hpos : 0 < camDist2 cfg cam := lt_of_le_of_ne h0 (Ne.symm hne)
  rw [hmain]
  nlinarith [hpos, hs0, hs1, mul_pos hpos hs0]

/-- Witness for C8's amended statement: camera at (5, 7), target
camera position (0, 0), smoothness 0.22. -/
theorem camera_update_distance_decay_witness :
    camDist2 ⟨10, 5, 15, true, 32⟩
      (Camera.update ⟨10, 5, 15, true, 32⟩
        ⟨800, 600, 5, 7, 25/2, 75/8, 11/50, 0, 0, 0, 0, 0, "linear",
          1, 1, 1/10, none, 0, 0, 0, 1/10⟩ (1/60) (1, 0))
      = (1 - 11/50) ^ 2 * camDist2 ⟨10, 5, 15, true, 32⟩
          ⟨800, 600, 5, 7, 25/2, 75/8, 11/50, 0, 0, 0, 0, 0, "linear",
            1, 1, 1/10, none, 0, 0, 0, 1/10⟩ ∧
    (camDist2 ⟨10, 5, 15, true, 32⟩
        ⟨800, 600, 5, 7, 25/2, 75/8, 11/50, 0, 0, 0, 0, 0, "linear",
          1, 1, 1/10, none, 0, 0, 0, 1/10⟩ ≠ 0 →
      camDist2 ⟨10, 5, 15, true, 32⟩
        (Camera.update ⟨10, 5, 15, true, 32⟩
          ⟨800, 600, 5, 7, 25/2, 75/8, 11/50, 0, 0, 0, 0, 0, "linear",
            1, 1, 1/10, none, 0, 0, 0, 1/10⟩ (1/60) (1, 0))
        < camDist2 ⟨10, 5, 15, true, 32⟩
          ⟨800, 600, 5, 7, 25/2, 75/8, 11/50, 0, 0, 0, 0, 0, "linear",
            1, 1, 1/10, none, 0, 0, 0, 1/10⟩) :=
  camera_update_distance_decay ⟨10, 5, 15, true, 32⟩
    ⟨800, 600, 5, 7, 25/2, 75/8, 11/50, 0, 0, 0, 0, 0, "linear",
      1, 1, 1/10, none, 0, 0, 0, 1/10⟩ (1/60) (1, 0)
    (by norm_num) (by norm_num) (le_refl 0) (le_refl 0) (le_refl 0) rfl

/-!
## C9 — StateMachine unknown-state transitions (src/engine/state_machine.py)

The `states` dict is a total function to `Option`; a state's
`update(entity, dt, **ctx)` return value is abstracted into the data
field `nextOf` (the embedding quantifies over it).  `enter`/`exit`
invocations are recorded as an event list — the base-class hooks only
log.  `has_entity` renders the truthiness of `self.entity` in
`StateMachine.update`'s guard.
-/

/-- A state of the finite state machine: its registry name and the
value its `update` returns (the next-state name or `None`). -/
structure SMState where
  name : String
  nextOf : Option String
deriving DecidableEq

/-- A recorded lifecycle invocation. -/
inductive SMEvent where
  | exited (name : String)
  | entered (name : String)
deriving DecidableEq

/-- The finite state machine for entity behavior. -/
structure StateMachine where
  states : String → Option SMState
  current_state : Option SMState
  has_entity : Bool

/-- `StateMachine.change_state(state_name)`: unknown names are logged
and ignored; otherwise exit the old state, enter the new one.
Returns the machine and the lifecycle events fired. -/
def StateMachine.change_state (m : StateMachine) (n : String) :
    StateMachine × List SMEvent :=
  match m.states n with
  | none => (m, [])
  | some s =>
    let exitEvents :=
      match m.current_state with
      | some c => [SMEvent.exited c.name]
      | none => []
    ({m with current_state := some s}, exitEvents ++ [SMEvent.entered s.name])

/-- `StateMachine.update(dt)`: run the current state's update; if it
returned a truthy name that is registered, auto-transition. -/
def StateMachine.update (m : StateMachine) : StateMachine × List SMEvent :=
  match m.current_state, m.has_entity with
  | some c, true =>
    match c.nextOf with
    | some n =>
      if n ≠ "" ∧ (m.states n).isSome then m.change_state n else (m, [])
    | none => (m, [])
  | _, _ => (m, [])

/-- C9.  Requesting a transition to a name not in the registry is a
no-op: `change_state` leaves `current_state` unchanged and fires
neither the old state's `exit` nor any state's `enter` (and, being
total, raises nothing); likewise when the current state's update
returns an unregistered name, `StateMachine.update` performs no
transition and the machine stays in its last valid state. -/
theorem stateMachine_unknown_state_noop (m : StateMachine) (n : String)
    (h : m.states n = none) :
    StateMachine.change_state m n = (m, []) ∧
    (∀ c : SMState, m.current_state = some c → c.nextOf = some n →
      StateMachine.update m = (m, [])) := by
  constructor
  · unfold StateMachine.change_state
    rw [h]
  · intro c hc hn
    rcases m with ⟨st, cur, ent⟩
    simp only at hc hn h
    subst hc
    cases ent
    · rfl
    · simp [StateMachine.update, hn, h]

/-- Witness for C9: a machine whose registry is empty, sitting in an
"idle" state whose update requests "flee". -/
theorem stateMachine_unknown_state_noop_witness :
    StateMachine.change_state ⟨fun _ => none, some ⟨"idle", some "flee"⟩, true⟩ "flee"
      = (⟨fun _ => none, some ⟨"idle", some "flee"⟩, true⟩, []) ∧
    (∀ c : SMState,
      (⟨fun _ => none, some ⟨"idle", some "flee"⟩, true⟩ : StateMachine).current_state = some c →
      c.nextOf = some "flee" →
      StateMachine.update ⟨fun _ => none, some ⟨"idle", some "flee"⟩, true⟩
        = (⟨fun _ => none, some ⟨"idle", some "flee"⟩, true⟩, [])) :=
  stateMachine_unknown_state_noop ⟨fun _ => none, some ⟨"idle", some "flee"⟩, true⟩ "flee" rfl

/-!
## C10 — EventBus.subscribe idempotence (src/engine/event_bus.py)

The listeners dict is a total function from event names to callback
lists (a missing key reads as the empty list, matching the
`if event_type not in self.listeners` initialisation); callbacks are
an abstract type with decidable equality (Python compares them with
`in`, i.e. `==`/identity).  `emit` returns the list of callbacks
invoked, each exactly once and in subscription order (exceptions in a
callback are caught and logged, which does not change which callbacks
are invoked).
-/

/-- `EventBus.subscribe(event_type, callback)`: create the key if
missing, then append the callback only if it is not yet registered. -/
def EventBus.subscribe {α : Type} [DecidableEq α]
    (listeners : String → List α) (event_type : String) (callback : α) :
    String → List α :=
  fun s =>
    if s = event_type then
      if callback ∈ listeners event_type then listeners event_type
      else listeners event_type ++ [callback]
    else listeners s

/-- `EventBus.emit(event_type)`: the callbacks invoked, in order. -/
def EventBus.emit {α : Type} [DecidableEq α]
    (listeners : String → List α) (event_type : String) : List α :=
  listeners event_type

theorem subscribe_apply {α : Type} [DecidableEq α]
    (L : String → List α) (et : String) (cb : α) :
    EventBus.subscribe L et cb et
      = if cb ∈ L et then L et else L et ++ [cb] := by
  simp [EventBus.subscribe]

theorem mem_subscribe_self {α : Type} [DecidableEq α]
    (L : String → List α) (et : String) (cb : α) :
    cb ∈ EventBus.subscribe L et cb et := by
  rw [subscribe_apply]
  by_cases h : cb ∈ L et
  · rwa [if_pos h]
  · rw [if_neg h]
    simp

/-- C10.  `subscribe` is idempotent: subscribing the same callback to
the same event type again changes nothing, so after any positive
number of identical subscriptions an `emit` of that event type invokes
the callback exactly once. -/
theorem eventBus_subscribe_idempotent {α : Type} [DecidableEq α]
    (L : String → List α) (et : String) (cb : α) :
    EventBus.subscribe (EventBus.subscribe L et cb) et cb = EventBus.subscribe L et cb ∧
    (cb ∉ L et → ∀ n : ℕ, 1 ≤ n →
      (EventBus.emit ((fun L' => EventBus.subscribe L' et cb)^[n] L) et).count cb = 1) := by
  have hid : EventBus.subscribe (EventBus.subscribe L et cb) et cb
      = EventBus.subscribe L et cb := by
    funext s
    by_cases hs : s = et
    · subst hs
      rw [subscribe_apply, if_pos (mem_subscribe_self L s cb)]
    · show (if s = et then _ else EventBus.subscribe L et cb s) = _
      rw [if_neg hs]
  refine ⟨hid, ?_⟩
  intro hmem n hn
  have hiter : ∀ k : ℕ, 1 ≤ k →
      (fun L' => EventBus.subscribe L' et cb)^[k] L = EventBus.subscribe L et cb := by
    intro k hk
    induction k with
    | zero => omega
    | succ j ih =>
      rcases Nat.lt_or_ge j 1 with hj | hj
      · have : j = 0 := by omega
        subst this
        simp
      · rw [Function.iterate_succ_apply', ih hj]
        exact hid
  rw [hiter n hn]
  unfold EventBus.emit
  rw [subscribe_apply, if_neg hmem, List.count_append]
  rw [List.count_eq_zero.mpr hmem]
  simp

/-- Witness for C10 over natural-number callback tokens. -/
theorem eventBus_subscribe_idempotent_witness :
    EventBus.subscribe (EventBus.subscribe (fun _ => ([] : List ℕ)) "player_damaged" 7)
        "player_damaged" 7
      = EventBus.subscribe (fun _ => ([] : List ℕ)) "player_damaged" 7 ∧
    (7 ∉ (fun _ => ([] : List ℕ)) "player_damaged" → ∀ n : ℕ, 1 ≤ n →
      (EventBus.emit ((fun L' => EventBus.subscribe L' "player_damaged" 7)^[n]
        (fun _ => ([] : List ℕ))) "player_damaged").count 7 = 1) :=
  eventBus_subscribe_idempotent (fun _ => ([] : List ℕ)) "player_damaged" 7
